import Mathlib

/-!
Verification of the certificate generator (generadorDiplos).

Shallow embedding of the repository sources:
  * `utils.py`      — slug normalization and unique-slug resolution
  * `database.py`   — the record store (save / get / markViewed / list / count / search)
  * `generator.py`  — certificate generation (single and batch)
  * `security.py`   — slug validation
  * `app.py`        — the certificate view endpoint

Strings are modelled via their character lists; machine side effects
(database sessions, HTTP, object storage) are modelled by explicit state
passing and collaborator records of functions.
-/

namespace GeneradorDiplos

/-! ## Slug normalizer (utils.py, nombre_to_slug) -/

/-- A lowercase ASCII letter or digit: the class `[a-z0-9]` of the regex
on utils.py line 32. -/
def isAlnumLower (c : Char) : Bool :=
  (('a' ≤ c) && (c ≤ 'z')) || (('0' ≤ c) && (c ≤ '9'))

/-- A character allowed in a finished slug: `[a-z0-9-]`. -/
def isSlugOutChar (c : Char) : Bool :=
  isAlnumLower c || (c == '-')

/-- Models Python `str.lower` (utils.py line 25) on the character range the
development exercises: ASCII uppercase maps to lowercase, everything else is
returned unchanged. -/
def pyLower (c : Char) : Char :=
  if ('A' ≤ c) && (c ≤ 'Z') then Char.ofNat (c.toNat + 32) else c

/-- Models the NFKD normalization followed by ascii/ignore encoding of
utils.py lines 28-29, on the character ranges the development exercises:
ASCII characters pass through unchanged; Latin letters with a diacritic
decompose into their base letter followed by a combining mark that the
ascii/ignore encoding drops; characters with no ASCII decomposition
(for example CJK ideographs) are dropped entirely. -/
def asciiFold (c : Char) : List Char :=
  if c.toNat < 128 then [c]
  else if c == 'á' || c == 'à' || c == 'â' || c == 'ä' || c == 'ã' then ['a']
  else if c == 'é' || c == 'è' || c == 'ê' || c == 'ë' then ['e']
  else if c == 'í' || c == 'ì' || c == 'î' || c == 'ï' then ['i']
  else if c == 'ó' || c == 'ò' || c == 'ô' || c == 'ö' || c == 'õ' then ['o']
  else if c == 'ú' || c == 'ù' || c == 'û' || c == 'ü' then ['u']
  else if c == 'ñ' then ['n']
  else if c == 'ç' then ['c']
  else []

/-- Models `re.sub(r'[^a-z0-9]+', '-', slug)` (utils.py line 32): every
maximal run of characters outside `[a-z0-9]` is replaced by a single hyphen.
The flag records whether the previous character was part of such a run. -/
def subNonAlnum (inRun : Bool) : List Char → List Char
  | [] => []
  | c :: cs =>
    if isAlnumLower c then c :: subNonAlnum false cs
    else if inRun then subNonAlnum true cs
    else '-' :: subNonAlnum true cs

/-- Removes a maximal trailing run of hyphens; together with
`List.dropWhile` this models Python `slug.strip('-')` (utils.py line 35). -/
def rstripHyphen : List Char → List Char
  | [] => []
  | c :: cs =>
    match rstripHyphen cs with
    | [] => if c == '-' then [] else [c]
    | r => c :: r

/-- Models `re.sub(r'-+', '-', slug)` (utils.py line 38): every maximal run
of hyphens is collapsed to a single hyphen. The flag records whether the
previous character was a hyphen. -/
def collapseHyphens (prevHyphen : Bool) : List Char → List Char
  | [] => []
  | c :: cs =>
    if c == '-' then
      if prevHyphen then collapseHyphens true cs
      else '-' :: collapseHyphens true cs
    else c :: collapseHyphens false cs

/-- `nombre_to_slug` (utils.py lines 9-40): lowercase, strip accents to
ASCII, replace runs of non-alphanumerics by a hyphen, strip boundary
hyphens, collapse hyphen runs. -/
def nombre_to_slug (nombre : String) : String :=
  let lowered := nombre.data.map pyLower
  let asciiOnly := (lowered.map asciiFold).flatten
  let subbed := subNonAlnum false asciiOnly
  let stripped := rstripHyphen (subbed.dropWhile (fun c => c == '-'))
  ⟨collapseHyphens false stripped⟩

/-! ## Slug validation (security.py, validate_slug) -/

/-- A character of the class `[a-z0-9\-_]` of the regex on
security.py line 64. -/
def isValidSlugChar (c : Char) : Bool :=
  (('a' ≤ c) && (c ≤ 'z')) || (('0' ≤ c) && (c ≤ '9')) || (c == '-') || (c == '_')

/-- `validate_slug` (security.py lines 46-74): non-empty, matches
`^[a-z0-9\-_]{1,100}$`, and is not one of the reserved tokens. -/
def validate_slug (slug : String) : Bool :=
  if slug.isEmpty then false
  else if slug.length ≤ 100 && slug.data.all isValidSlugChar then
    !(slug == "." || slug == ".." || slug == "-" || slug == "--")
  else false

/-! ## Shape predicates on character lists -/

/-- The list begins with a hyphen. -/
def startsWithHyphen : List Char → Bool
  | [] => false
  | c :: _ => c == '-'

/-- The list ends with a hyphen. -/
def endsWithHyphen : List Char → Bool
  | [] => false
  | [c] => c == '-'
  | _ :: c :: cs => endsWithHyphen (c :: cs)

/-- The list contains two consecutive hyphens. -/
def hasDoubleHyphen : List Char → Bool
  | [] => false
  | [_] => false
  | a :: b :: cs => ((a == '-') && (b == '-')) || hasDoubleHyphen (b :: cs)

theorem endsWithHyphen_cons_of_ne_nil (a : Char) {l : List Char} (h : l ≠ []) :
    endsWithHyphen (a :: l) = endsWithHyphen l := by
  cases l with
  | nil => exact absurd rfl h
  | cons b bs => rfl

/-! ### Properties of the substitution pass -/

theorem subNonAlnum_chars (l : List Char) :
    ∀ b, ∀ c ∈ subNonAlnum b l, isSlugOutChar c = true := by
  induction l with
  | nil => intro b c hc; simp [subNonAlnum] at hc
  | cons x xs ih =>
    intro b c hc
    by_cases hx : isAlnumLower x = true
    · rw [subNonAlnum, if_pos hx] at hc
      rcases List.mem_cons.mp hc with h | h
      · subst h; simp [isSlugOutChar, hx]
      · exact ih false c h
    · rw [subNonAlnum, if_neg hx] at hc
      cases b with
      | true =>
        rw [if_pos rfl] at hc
        exact ih true c hc
      | false =>
        rw [if_neg (by simp)] at hc
        rcases List.mem_cons.mp hc with h | h
        · subst h; simp [isSlugOutChar]
        · exact ih true c h

/-! ### Properties of the stripping passes -/

theorem rstripHyphen_subset {l : List Char} : ∀ c ∈ rstripHyphen l, c ∈ l := by
  induction l with
  | nil => intro c hc; simp [rstripHyphen] at hc
  | cons x xs ih =>
    intro c hc
    rw [rstripHyphen] at hc
    cases hr : rstripHyphen xs with
    | nil =>
      rw [hr] at hc
      by_cases hx : x = '-'
      · simp [hx] at hc
      · simp [hx] at hc
        simp [hc]
    | cons y ys =>
      rw [hr] at hc
      rcases List.mem_cons.mp hc with h | h
      · simp [h]
      · exact List.mem_cons_of_mem x (ih c (by rw [hr]; exact h))

theorem rstripHyphen_not_endsWith (l : List Char) :
    endsWithHyphen (rstripHyphen l) = false := by
  induction l with
  | nil => rfl
  | cons x xs ih =>
    rw [rstripHyphen]
    cases hr : rstripHyphen xs with
    | nil =>
      by_cases hx : x = '-'
      · simp [hx, endsWithHyphen]
      · have hbx : (x == '-') = false := beq_eq_false_iff_ne.mpr hx
        simp [hbx, endsWithHyphen]
    | cons y ys =>
      rw [endsWithHyphen_cons_of_ne_nil x (by simp)]
      rw [hr] at ih; exact ih

theorem rstripHyphen_starts (l : List Char) (h : startsWithHyphen l = false) :
    startsWithHyphen (rstripHyphen l) = false := by
  cases l with
  | nil => rfl
  | cons x xs =>
    have hbx : (x == '-') = false := by simpa [startsWithHyphen] using h
    rw [rstripHyphen]
    cases hr : rstripHyphen xs with
    | nil => simp [hbx, startsWithHyphen]
    | cons y ys => simp [startsWithHyphen, hbx]

theorem dropWhile_hyphen_starts (l : List Char) :
    startsWithHyphen (l.dropWhile (fun c => c == '-')) = false := by
  induction l with
  | nil => rfl
  | cons x xs ih =>
    by_cases hx : x = '-'
    · simpa [List.dropWhile, hx] using ih
    · have hbx : (x == '-') = false := beq_eq_false_iff_ne.mpr hx
      simp [List.dropWhile, hbx, startsWithHyphen]

/-! ### Properties of the hyphen-collapsing pass -/

theorem collapseHyphens_cons_hyphen_true (xs : List Char) :
    collapseHyphens true ('-' :: xs) = collapseHyphens true xs := by
  simp [collapseHyphens]

theorem collapseHyphens_cons_hyphen_false (xs : List Char) :
    collapseHyphens false ('-' :: xs) = '-' :: collapseHyphens true xs := by
  simp [collapseHyphens]

theorem collapseHyphens_chars (l : List Char) :
    ∀ b, ∀ c ∈ collapseHyphens b l, c ∈ l ∨ c = '-' := by
  induction l with
  | nil => intro b c hc; simp [collapseHyphens] at hc
  | cons x xs ih =>
    intro b c hc
    by_cases hx : x = '-'
    · subst hx
      cases b with
      | true =>
        rw [collapseHyphens_cons_hyphen_true] at hc
        rcases ih true c hc with h | h
        · exact Or.inl (List.mem_cons_of_mem _ h)
        · exact Or.inr h
      | false =>
        rw [collapseHyphens_cons_hyphen_false] at hc
        rcases List.mem_cons.mp hc with h | h
        · exact Or.inr h
        · rcases ih true c h with h2 | h2
          · exact Or.inl (List.mem_cons_of_mem _ h2)
          · exact Or.inr h2
    · have hbx : (x == '-') = false := beq_eq_false_iff_ne.mpr hx
      rw [collapseHyphens, hbx] at hc
      simp only [Bool.false_eq_true, if_false] at hc
      rcases List.mem_cons.mp hc with h | h
      · exact Or.inl (h ▸ List.mem_cons_self x xs)
      · rcases ih false c h with h2 | h2
        · exact Or.inl (List.mem_cons_of_mem x h2)
        · exact Or.inr h2

theorem collapseHyphens_noDouble (l : List Char) :
    ∀ b, hasDoubleHyphen (collapseHyphens b l) = false ∧
      (b = true → startsWithHyphen (collapseHyphens b l) = false) := by
  induction l with
  | nil => intro b; exact ⟨rfl, fun _ => rfl⟩
  | cons x xs ih =>
    intro b
    by_cases hx : x = '-'
    · subst hx
      cases b with
      | true => simpa [collapseHyphens_cons_hyphen_true] using ih true
      | false =>
        have ihx := ih true
        rw [collapseHyphens_cons_hyphen_false]
        constructor
        · cases hY : collapseHyphens true xs with
          | nil => rfl
          | cons d ds =>
            have hs : startsWithHyphen (d :: ds) = false := hY ▸ ihx.2 rfl
            have hd : (d == '-') = false := by simpa [startsWithHyphen] using hs
            have hdd : hasDoubleHyphen (d :: ds) = false := hY ▸ ihx.1
            simp [hasDoubleHyphen, hd, hdd]
        · intro h; cases h
    · have hbx : (x == '-') = false := beq_eq_false_iff_ne.mpr hx
      have ihx := ih false
      rw [collapseHyphens, hbx]
      simp only [Bool.false_eq_true, if_false]
      constructor
      · cases hY : collapseHyphens false xs with
        | nil => simp [hasDoubleHyphen]
        | cons d ds =>
          have hdd : hasDoubleHyphen (d :: ds) = false := hY ▸ ihx.1
          simp [hasDoubleHyphen, hbx, hdd]
      · intro _
        simp [startsWithHyphen, hbx]

theorem collapseHyphens_starts (l : List Char) (h : startsWithHyphen l = false) :
    startsWithHyphen (collapseHyphens false l) = false := by
  cases l with
  | nil => rfl
  | cons x xs =>
    have hbx : (x == '-') = false := by simpa [startsWithHyphen] using h
    rw [collapseHyphens, hbx]
    simp [startsWithHyphen, hbx]

theorem collapseHyphens_ends (l : List Char) (he : endsWithHyphen l = false) :
    ∀ b, (collapseHyphens b l = [] → l = []) ∧
      endsWithHyphen (collapseHyphens b l) = false := by
  induction l with
  | nil => intro b; exact ⟨fun _ => rfl, rfl⟩
  | cons x xs ih =>
    intro b
    cases xs with
    | nil =>
      have hx : (x == '-') = false := by simpa [endsWithHyphen] using he
      constructor
      · intro hcon
        rw [collapseHyphens, hx] at hcon
        simp at hcon
      · rw [collapseHyphens, hx]
        simp [collapseHyphens, endsWithHyphen, hx]
    | cons y ys =>
      have hys : endsWithHyphen (y :: ys) = false := by
        rwa [endsWithHyphen_cons_of_ne_nil x (by simp)] at he
      have ihx := ih hys
      by_cases hx : x = '-'
      · subst hx
        cases b with
        | true =>
          rw [collapseHyphens_cons_hyphen_true]
          refine ⟨fun hcon => absurd ((ihx true).1 hcon) (by simp), (ihx true).2⟩
        | false =>
          rw [collapseHyphens_cons_hyphen_false]
          refine ⟨by simp, ?_⟩
          have hne : collapseHyphens true (y :: ys) ≠ [] := by
            intro hcon; exact absurd ((ihx true).1 hcon) (by simp)
          rw [endsWithHyphen_cons_of_ne_nil _ hne]
          exact (ihx true).2
      · have hbx : (x == '-') = false := beq_eq_false_iff_ne.mpr hx
        rw [collapseHyphens, hbx]
        simp only [Bool.false_eq_true, if_false]
        refine ⟨by simp, ?_⟩
        have hne : collapseHyphens false (y :: ys) ≠ [] := by
          intro hcon; exact absurd ((ihx false).1 hcon) (by simp)
        rw [endsWithHyphen_cons_of_ne_nil _ hne]
        exact (ihx false).2

/-! ### Well-formedness of the whole normalization pipeline -/

theorem slug_pipeline_wellformed (l : List Char) :
    (collapseHyphens false (rstripHyphen
        ((subNonAlnum false l).dropWhile (fun c => c == '-')))).all isSlugOutChar
      = true ∧
    startsWithHyphen (collapseHyphens false (rstripHyphen
        ((subNonAlnum false l).dropWhile (fun c => c == '-')))) = false ∧
    endsWithHyphen (collapseHyphens false (rstripHyphen
        ((subNonAlnum false l).dropWhile (fun c => c == '-')))) = false ∧
    hasDoubleHyphen (collapseHyphens false (rstripHyphen
        ((subNonAlnum false l).dropWhile (fun c => c == '-')))) = false := by
  refine ⟨?_, ?_, ?_, ?_⟩
  · rw [List.all_eq_true]
    intro c hc
    rcases collapseHyphens_chars _ false c hc with h | h
    · have h2 := rstripHyphen_subset c h
      have h3 := (List.dropWhile_suffix (fun c => c == '-')).subset h2
      exact subNonAlnum_chars l false c h3
    · subst h; simp [isSlugOutChar]
  · exact collapseHyphens_starts _
      (rstripHyphen_starts _ (dropWhile_hyphen_starts _))
  · exact (collapseHyphens_ends _ (rstripHyphen_not_endsWith _) false).2
  · exact (collapseHyphens_noDouble _ false).1

/-- **C2.** For every input name `n`, `nombre_to_slug n` contains only
characters from `[a-z0-9-]`, has no leading hyphen, no trailing hyphen, and
no two consecutive hyphens. -/
theorem nombre_to_slug_wellformed (n : String) :
    (nombre_to_slug n).data.all isSlugOutChar = true ∧
    startsWithHyphen (nombre_to_slug n).data = false ∧
    endsWithHyphen (nombre_to_slug n).data = false ∧
    hasDoubleHyphen (nombre_to_slug n).data = false :=
  slug_pipeline_wellformed (((n.data.map pyLower).map asciiFold).flatten)

/-- The name OBrien spelled with its apostrophe (character 39). -/
def obrienName : String :=
  String.mk ['O', Char.ofNat 39, 'B', 'r', 'i', 'e', 'n']

/-- **C3.** The accented example of the docstring holds, but the apostrophe
example does not: `nombre_to_slug` maps the OBrien name to `"o-brien"`,
because the apostrophe falls in the class `[^a-z0-9]` that utils.py line 32
replaces with a hyphen, while the docstring of `nombre_to_slug` (utils.py
line 16) and the spec both state the result is `"obrien"`. -/
theorem nombre_to_slug_obrien_divergence :
    nombre_to_slug "María José González" = "maria-jose-gonzalez" ∧
    nombre_to_slug obrienName = "o-brien" ∧
    ("o-brien" : String) ≠ "obrien" := by
  refine ⟨by decide, by decide, by decide⟩

/-- **C10.** There is a non-empty name whose slug is empty: every character
of a fully non-Latin name is dropped by the ascii encoding step, so
`nombre_to_slug` returns the empty string, which the per-request validator
`validate_slug` rejects at every public endpoint. -/
theorem nombre_to_slug_empty_on_nonlatin :
    ("山田" : String) ≠ "" ∧
    nombre_to_slug "山田" = "" ∧
    validate_slug "" = false ∧
    validate_slug (nombre_to_slug "山田") = false := by
  refine ⟨by decide, by decide, by decide, by decide⟩

/-! ## The record store (database.py)

A `Certificado` row.  `fecha_generacion` and `ultima_visita` are abstract
timestamps (`Nat`); the wall clock is passed explicitly where the Python
code calls `datetime.utcnow`. -/

structure Record where
  slug : String
  nombre : String
  email : String
  cloudinary_url : String
  cloudinary_public_id : String
  fecha_generacion : Nat
  visto : Nat
  ultima_visita : Option Nat
deriving Repr, DecidableEq

/-- The table `certificados`, in insertion order. -/
abbrev DB := List Record

/-- `Database.obtener_certificado` (database.py lines 136-156): first row
whose slug matches, if any. -/
def obtener_certificado (db : DB) (slug : String) : Option Record :=
  db.find? (fun r => r.slug == slug)

/-- `Database.guardar_certificado` (database.py lines 91-134): insert a new
row with `visto = 0` and `ultima_visita = NULL`; the unique constraint on
`slug` rejects a duplicate (`IntegrityError`), in which case the table is
unchanged and `False` is returned. -/
def guardar_certificado (db : DB) (slug nombre email url publicId : String)
    (now : Nat) : DB × Bool :=
  if db.any (fun r => r.slug == slug) then (db, false)
  else (db ++ [⟨slug, nombre, email, url, publicId, now, 0, none⟩], true)

/-- `Database.marcar_como_visto` (database.py lines 158-182): the first row
whose slug matches gets `visto` incremented and `ultima_visita` set to the
current time; returns whether a row was found. -/
def marcar_como_visto (db : DB) (slug : String) (now : Nat) : DB × Bool :=
  match db with
  | [] => ([], false)
  | r :: rest =>
    if r.slug == slug then
      ({ r with visto := r.visto + 1, ultima_visita := some now } :: rest, true)
    else
      let res := marcar_como_visto rest slug now
      (r :: res.1, res.2)

/-- `Database.listar_certificados` (database.py lines 184-209): rows ordered
by generation date descending, with offset/limit pagination.  Read-only. -/
def listar_certificados (db : DB) (limite offset : Nat) : List Record :=
  (((db.mergeSort (fun a b => b.fecha_generacion ≤ a.fecha_generacion)).drop
      offset).take limite)

/-- `Database.contar_certificados` (database.py lines 211-226).  Read-only. -/
def contar_certificados (db : DB) : Nat :=
  db.length

/-- Case-insensitive substring test, modelling the SQL `ilike '%q%'`
filter used by the search queries. -/
def ilikeContains (haystack needle : String) : Bool :=
  let h := haystack.data.map pyLower
  let n := needle.data.map pyLower
  (List.range (h.length + 1)).any (fun i => n.isPrefixOf (h.drop i))

/-- `Database.buscar_por_email` (database.py lines 228-251).  Read-only. -/
def buscar_por_email (db : DB) (email : String) : List Record :=
  ((db.filter (fun r => ilikeContains r.email email)).mergeSort
    (fun a b => b.fecha_generacion ≤ a.fecha_generacion))

/-- `Database.buscar_por_nombre` (database.py lines 253-276).  Read-only. -/
def buscar_por_nombre (db : DB) (nombre : String) : List Record :=
  ((db.filter (fun r => ilikeContains r.nombre nombre)).mergeSort
    (fun a b => b.fecha_generacion ≤ a.fecha_generacion))

/-! ## Unique-slug resolution (utils.py, generar_slug_unico) -/

/-- The candidate sequence of the uniqueness loop: the base token first,
then `base-2`, `base-3`, and so on. -/
def candidato (base : String) : Nat → String
  | 0 => base
  | Nat.succ i => base ++ "-" ++ toString (i + 2)

/-- The `while` loop of `generar_slug_unico` (utils.py lines 64-66), with
an explicit fuel bound standing for the unbounded iteration: starting at
candidate index `i`, return the first candidate the lookup capability
reports unused. -/
def slugLoop (existsSlug : String → Bool) (base : String) :
    Nat → Nat → Option String
  | 0, _ => none
  | fuel + 1, i =>
    if existsSlug (candidato base i) then slugLoop existsSlug base fuel (i + 1)
    else some (candidato base i)

/-- `generar_slug_unico` (utils.py lines 43-68): normalize the name, then
probe `base, base-2, base-3, ...` against the lookup capability.  The
Python code receives the `Database` instance; the lookup capability here is
`fun s => (obtener_certificado db s).isSome`. -/
def generar_slug_unico (nombre : String) (existsSlug : String → Bool)
    (fuel : Nat) : Option String :=
  slugLoop existsSlug (nombre_to_slug nombre) fuel 0

theorem slugLoop_finds (existsSlug : String → Bool) (base : String) :
    ∀ (k i fuel : Nat),
      (∀ j, j < k → existsSlug (candidato base (i + j)) = true) →
      existsSlug (candidato base (i + k)) = false →
      k < fuel →
      slugLoop existsSlug base fuel i = some (candidato base (i + k)) := by
  intro k
  induction k with
  | zero =>
    intro i fuel _ hfree hfuel
    cases fuel with
    | zero => omega
    | succ f =>
      rw [slugLoop, if_neg (by simp only [Nat.add_zero] at hfree; simp [hfree])]
      simp
  | succ k ih =>
    intro i fuel hbusy hfree hfuel
    cases fuel with
    | zero => omega
    | succ f =>
      have h0 : existsSlug (candidato base i) = true := by
        have := hbusy 0 (Nat.succ_pos k)
        simpa using this
      rw [slugLoop, if_pos h0]
      have h1 : ∀ j, j < k → existsSlug (candidato base (i + 1 + j)) = true := by
        intro j hj
        have := hbusy (j + 1) (by omega)
        have harith : i + (j + 1) = i + 1 + j := by omega
        rwa [harith] at this
      have h2 : existsSlug (candidato base (i + 1 + k)) = false := by
        have harith : i + (k + 1) = i + 1 + k := by omega
        rwa [harith] at hfree
      have := ih (i + 1) f h1 h2 (by omega)
      rw [this]
      have harith : i + 1 + k = i + (k + 1) := by omega
      rw [harith]

/-- A table holding only a record with slug `frank-vargas`. -/
def dbFrank1 : DB :=
  [⟨"frank-vargas", "Frank Vargas", "frank@example.com", "u", "p", 0, 0, none⟩]

/-- A table holding records with slugs `frank-vargas` and `frank-vargas-2`. -/
def dbFrank2 : DB :=
  dbFrank1 ++
    [⟨"frank-vargas-2", "Frank Vargas", "frank@example.com", "u", "p", 1, 0, none⟩]

/-- **C1.** The uniqueness resolver returns the first unused candidate of
the sequence `base, base-2, base-3, ...`: whenever the lookup capability
reports the first `k` candidates used and candidate `k` unused, the loop
(run with enough fuel) returns candidate `k`; in particular against a store
already holding `frank-vargas` a second certificate for Frank Vargas gets
slug `frank-vargas-2`, and against a store also holding `frank-vargas-2` a
third gets `frank-vargas-3`. -/
theorem generar_slug_unico_first_unused :
    (∀ (nombre : String) (existsSlug : String → Bool) (k fuel : Nat),
      (∀ j, j < k → existsSlug (candidato (nombre_to_slug nombre) j) = true) →
      existsSlug (candidato (nombre_to_slug nombre) k) = false →
      k < fuel →
      generar_slug_unico nombre existsSlug fuel
        = some (candidato (nombre_to_slug nombre) k)) ∧
    generar_slug_unico "Frank Vargas"
        (fun s => (obtener_certificado dbFrank1 s).isSome) 3
      = some "frank-vargas-2" ∧
    generar_slug_unico "Frank Vargas"
        (fun s => (obtener_certificado dbFrank2 s).isSome) 4
      = some "frank-vargas-3" := by
  refine ⟨?_, by decide, by decide⟩
  intro nombre existsSlug k fuel hbusy hfree hfuel
  have h := slugLoop_finds existsSlug (nombre_to_slug nombre) k 0 fuel
    (by intro j hj; simpa using hbusy j hj) (by simpa using hfree) hfuel
  simpa [generar_slug_unico] using h

/-- Concrete instantiation of the universal part of
`generar_slug_unico_first_unused`: with `frank-vargas` the only used slug,
the first free candidate is candidate 1. -/
theorem generar_slug_unico_first_unused_witness :
    generar_slug_unico "Frank Vargas" (fun s => s == "frank-vargas") 2
      = some "frank-vargas-2" := by
  have h := generar_slug_unico_first_unused.1 "Frank Vargas"
    (fun s => s == "frank-vargas") 1 2
    (by decide) (by decide) (by decide)
  exact h.trans (by decide)

/-! ## Mark-viewed properties (claims about database.py) -/

theorem marcar_found (db : DB) (slug : String) (t : Nat) (r : Record)
    (h : obtener_certificado db slug = some r) :
    (marcar_como_visto db slug t).2 = true ∧
    obtener_certificado (marcar_como_visto db slug t).1 slug
      = some { r with visto := r.visto + 1, ultima_visita := some t } := by
  induction db with
  | nil => simp [obtener_certificado] at h
  | cons x xs ih =>
    by_cases hx : x.slug = slug
    · have hbx : (x.slug == slug) = true := beq_iff_eq.mpr hx
      have hr : r = x := by
        simp [obtener_certificado, List.find?_cons_of_pos, hbx] at h
        exact h.symm
      subst hr
      constructor
      · simp [marcar_como_visto, hbx]
      · simp [marcar_como_visto, hbx, obtener_certificado,
          List.find?_cons_of_pos]
    · have hbx : (x.slug == slug) = false := beq_eq_false_iff_ne.mpr hx
      have h2 : obtener_certificado xs slug = some r := by
        simpa [obtener_certificado, List.find?_cons_of_neg, hbx] using h
      have ih2 := ih h2
      constructor
      · simp [marcar_como_visto, hbx, ih2.1]
      · simpa [marcar_como_visto, hbx, obtener_certificado,
          List.find?_cons_of_neg] using ih2.2

/-- **C7.** Marking a stored record as viewed twice increments its `visto`
counter by exactly 2 relative to its value before the first call, and
leaves `ultima_visita` at the second call's timestamp. -/
theorem marcar_como_visto_twice (db : DB) (slug : String) (t1 t2 : Nat)
    (r : Record) (h : obtener_certificado db slug = some r) :
    obtener_certificado
        (marcar_como_visto (marcar_como_visto db slug t1).1 slug t2).1 slug
      = some { r with visto := r.visto + 2, ultima_visita := some t2 } := by
  have h1 := (marcar_found db slug t1 r h).2
  have h2 := (marcar_found _ slug t2 _ h1).2
  simpa using h2

/-- Concrete instantiation of `marcar_como_visto_twice` on a one-row
table. -/
theorem marcar_como_visto_twice_witness :
    obtener_certificado
        (marcar_como_visto (marcar_como_visto dbFrank1 "frank-vargas" 5).1
          "frank-vargas" 9).1 "frank-vargas"
      = some ⟨"frank-vargas", "Frank Vargas", "frank@example.com", "u", "p",
          0, 2, some 9⟩ := by
  have h := marcar_como_visto_twice dbFrank1 "frank-vargas" 5 9
    ⟨"frank-vargas", "Frank Vargas", "frank@example.com", "u", "p", 0, 0, none⟩
    (by decide)
  exact h.trans (by decide)

/-! ## Store operation sequences (claims about the Database surface) -/

/-- One call to the exposed surface of `Database` (database.py lines
54-277).  `save` carries the row fields and the insertion clock; `mark`
carries the visit clock. -/
inductive Op where
  | save (slug nombre email url publicId : String) (now : Nat)
  | get (slug : String)
  | mark (slug : String) (now : Nat)
  | listar (limite offset : Nat)
  | contar
  | searchEmail (q : String)
  | searchName (q : String)
deriving Repr, DecidableEq

/-- The table after one operation.  The query operations
(`obtener_certificado`, `listar_certificados`, `contar_certificados`,
`buscar_por_email`, `buscar_por_nombre`) only read their session and never
flush a change, so they leave the table as it was. -/
def applyOp (db : DB) : Op → DB
  | .save slug nombre email url publicId now =>
      (guardar_certificado db slug nombre email url publicId now).1
  | .get _ => db
  | .mark slug now => (marcar_como_visto db slug now).1
  | .listar _ _ => db
  | .contar => db
  | .searchEmail _ => db
  | .searchName _ => db

/-- The table after a sequence of operations. -/
def applyOps (db : DB) : List Op → DB
  | [] => db
  | op :: ops => applyOps (applyOp db op) ops

/-- Whether an operation is the mark-viewed operation. -/
def isMark : Op → Bool
  | .mark _ _ => true
  | _ => false

theorem find?_append_left {α : Type} (p : α → Bool) {l1 : List α}
    (l2 : List α) {a : α} (h : l1.find? p = some a) :
    (l1 ++ l2).find? p = some a := by
  induction l1 with
  | nil => simp [List.find?] at h
  | cons x xs ih =>
    by_cases hx : p x = true
    · rw [List.find?_cons_of_pos _ hx] at h
      simpa [List.find?_cons_of_pos _ hx] using h
    · rw [List.find?_cons_of_neg _ (by simpa using hx)] at h
      have := ih h
      simpa [List.find?_cons_of_neg _ (by simpa using hx)] using this

theorem obtener_marcar (db : DB) (s : String) (t : Nat) (slug : String)
    (r : Record) (h : obtener_certificado db slug = some r) :
    obtener_certificado (marcar_como_visto db s t).1 slug = some r ∨
    obtener_certificado (marcar_como_visto db s t).1 slug
      = some { r with visto := r.visto + 1, ultima_visita := some t } := by
  induction db with
  | nil => simp [obtener_certificado] at h
  | cons x xs ih =>
    by_cases hxs : x.slug = s
    · have hbxs : (x.slug == s) = true := beq_iff_eq.mpr hxs
      by_cases hxr : x.slug = slug
      · have hbxr : (x.slug == slug) = true := beq_iff_eq.mpr hxr
        have hr : r = x := by
          simp [obtener_certificado, List.find?_cons_of_pos, hbxr] at h
          exact h.symm
        subst hr
        right
        simp [marcar_como_visto, hbxs, obtener_certificado,
          List.find?_cons_of_pos, hbxr]
      · have hbxr : (x.slug == slug) = false := beq_eq_false_iff_ne.mpr hxr
        have h2 : obtener_certificado xs slug = some r := by
          simpa [obtener_certificado, List.find?_cons_of_neg, hbxr] using h
        left
        simpa [marcar_como_visto, hbxs, obtener_certificado,
          List.find?_cons_of_neg, hbxr] using h2
    · have hbxs : (x.slug == s) = false := beq_eq_false_iff_ne.mpr hxs
      by_cases hxr : x.slug = slug
      · have hbxr : (x.slug == slug) = true := beq_iff_eq.mpr hxr
        have hr : r = x := by
          simp [obtener_certificado, List.find?_cons_of_pos, hbxr] at h
          exact h.symm
        subst hr
        left
        simp [marcar_como_visto, hbxs, obtener_certificado,
          List.find?_cons_of_pos, hbxr]
      · have hbxr : (x.slug == slug) = false := beq_eq_false_iff_ne.mpr hxr
        have h2 : obtener_certificado xs slug = some r := by
          simpa [obtener_certificado, List.find?_cons_of_neg, hbxr] using h
        rcases ih h2 with h3 | h3
        · left
          simpa [marcar_como_visto, hbxs, obtener_certificado,
            List.find?_cons_of_neg, hbxr] using h3
        · right
          simpa [marcar_como_visto, hbxs, obtener_certificado,
            List.find?_cons_of_neg, hbxr] using h3

theorem applyOp_keeps_record (db : DB) (op : Op) (slug : String) (r : Record)
    (h : obtener_certificado db slug = some r) :
    ∃ r2, obtener_certificado (applyOp db op) slug = some r2 ∧
      r.visto ≤ r2.visto := by
  cases op with
  | save s n e u p now =>
    by_cases hdup : db.any (fun row => row.slug == s) = true
    · refine ⟨r, ?_, Nat.le_refl _⟩
      simp only [applyOp, guardar_certificado, if_pos hdup]
      exact h
    · refine ⟨r, ?_, Nat.le_refl _⟩
      simp only [applyOp, guardar_certificado, if_neg hdup]
      exact find?_append_left _ _ h
  | get s => exact ⟨r, h, Nat.le_refl _⟩
  | mark s now =>
    rcases obtener_marcar db s now slug r h with h2 | h2
    · exact ⟨r, h2, Nat.le_refl _⟩
    · exact ⟨_, h2, by simp⟩
  | listar a b => exact ⟨r, h, Nat.le_refl _⟩
  | contar => exact ⟨r, h, Nat.le_refl _⟩
  | searchEmail q => exact ⟨r, h, Nat.le_refl _⟩
  | searchName q => exact ⟨r, h, Nat.le_refl _⟩

theorem applyOps_keeps_record (ops : List Op) :
    ∀ (db : DB) (slug : String) (r : Record),
      obtener_certificado db slug = some r →
      ∃ r2, obtener_certificado (applyOps db ops) slug = some r2 ∧
        r.visto ≤ r2.visto := by
  induction ops with
  | nil => exact fun db slug r h => ⟨r, h, Nat.le_refl _⟩
  | cons op ops ih =>
    intro db slug r h
    obtain ⟨r1, h1, hle1⟩ := applyOp_keeps_record db op slug r h
    obtain ⟨r2, h2, hle2⟩ := ih (applyOp db op) slug r1 h1
    exact ⟨r2, h2, Nat.le_trans hle1 hle2⟩

/-- **C8.** Over every sequence of store operations a stored record is
never deleted and its `visto` counter never decreases; the mark-viewed
operation is the only one that mutates an existing record, adding exactly 1
to `visto`, while every other operation leaves the record untouched. -/
theorem viewCount_monotone :
    (∀ (db : DB) (ops : List Op) (slug : String) (r : Record),
      obtener_certificado db slug = some r →
      ∃ r2, obtener_certificado (applyOps db ops) slug = some r2 ∧
        r.visto ≤ r2.visto) ∧
    (∀ (db : DB) (op : Op) (slug : String) (r : Record),
      isMark op = false →
      obtener_certificado db slug = some r →
      obtener_certificado (applyOp db op) slug = some r) ∧
    (∀ (db : DB) (slug : String) (t : Nat) (r : Record),
      obtener_certificado db slug = some r →
      obtener_certificado (applyOp db (Op.mark slug t)) slug
        = some { r with visto := r.visto + 1, ultima_visita := some t }) := by
  refine ⟨fun db ops slug r h => applyOps_keeps_record ops db slug r h, ?_, ?_⟩
  · intro db op slug r hnm h
    cases op with
    | save s n e u p now =>
      by_cases hdup : db.any (fun row => row.slug == s) = true
      · simp only [applyOp, guardar_certificado, if_pos hdup]
        exact h
      · simp only [applyOp, guardar_certificado, if_neg hdup]
        exact find?_append_left _ _ h
    | get s => exact h
    | mark s now => simp [isMark] at hnm
    | listar a b => exact h
    | contar => exact h
    | searchEmail q => exact h
    | searchName q => exact h
  · intro db slug t r h
    exact (marcar_found db slug t r h).2

/-- Concrete instantiation of `viewCount_monotone`: a mark, a save and a
count leave the Frank Vargas record present with a view count at least its
starting value. -/
theorem viewCount_monotone_witness :
    ∃ r2, obtener_certificado
        (applyOps dbFrank1
          [Op.mark "frank-vargas" 3,
           Op.save "otra" "Otra" "o@example.com" "u2" "p2" 7,
           Op.contar]) "frank-vargas" = some r2 ∧
      0 ≤ r2.visto := by
  have h := viewCount_monotone.1 dbFrank1
    [Op.mark "frank-vargas" 3,
     Op.save "otra" "Otra" "o@example.com" "u2" "p2" 7,
     Op.contar] "frank-vargas"
    ⟨"frank-vargas", "Frank Vargas", "frank@example.com", "u", "p", 0, 0, none⟩
    (by decide)
  simpa using h

/-! ## The certificate view endpoint (app.py, ver_certificado) -/

/-- `validate_cloudinary_url` (security.py lines 77-119), modelling
`urlparse` on well-formed URLs: the scheme must be `https` and the host
part (up to the first slash after the scheme) must be a Cloudinary domain
or a subdomain of one. -/
def validate_cloudinary_url (url : String) : Bool :=
  if url.isEmpty then false
  else if url.startsWith "https://" then
    let hostname := String.map pyLower
      ((url.drop 8).takeWhile (fun c => !(c == '/')))
    hostname == "res.cloudinary.com" ||
      hostname.endsWith ".res.cloudinary.com" ||
      hostname == "cloudinary.com" ||
      hostname.endsWith ".cloudinary.com"
  else false

/-- Outcome of the view endpoint, abstracting the HTTP responses of
app.py lines 213-280: the 404 error page, the 500 error page, and the 200
response serving the generated PDF. -/
inductive ViewOutcome where
  | notFound
  | serverError
  | pdf
deriving Repr, DecidableEq

/-- The outbound collaborators of the view endpoint: the HTTP client
fetching the stored SVG (`none` models a request exception) and the
SVG-to-PDF renderer (`false` models a conversion failure caught by the
outer handler). -/
structure ViewEnv where
  fetch : String → Option String
  pdfOk : String → Bool

/-- `ver_certificado` (app.py lines 213-280): reject invalid slugs with
404, look the slug up and 404 when unknown, mark the record viewed, then
validate the stored URL, fetch the SVG (rejecting oversized or empty
bodies) and serve the PDF; every failure past the lookup is a 500. -/
def ver_certificado (env : ViewEnv) (db : DB) (slug : String) (now : Nat) :
    ViewOutcome × DB :=
  if !(validate_slug slug) then (ViewOutcome.notFound, db)
  else
    match obtener_certificado db slug with
    | none => (ViewOutcome.notFound, db)
    | some cert =>
      let db1 := (marcar_como_visto db slug now).1
      if !(validate_cloudinary_url cert.cloudinary_url) then
        (ViewOutcome.serverError, db1)
      else
        match env.fetch cert.cloudinary_url with
        | none => (ViewOutcome.serverError, db1)
        | some svg =>
          if svg.length > 5 * 1024 * 1024 then (ViewOutcome.serverError, db1)
          else if svg.isEmpty then (ViewOutcome.serverError, db1)
          else if env.pdfOk svg then (ViewOutcome.pdf, db1)
          else (ViewOutcome.serverError, db1)

/-- **C9.** A request for a slug with no stored record yields the 404
not-found outcome — never a server error — and leaves the table untouched;
conversely the table (and hence any view counter) changes only when the
slug is known. -/
theorem ver_certificado_unknown_slug :
    (∀ (env : ViewEnv) (db : DB) (slug : String) (now : Nat),
      obtener_certificado db slug = none →
      ver_certificado env db slug now = (ViewOutcome.notFound, db)) ∧
    (∀ (env : ViewEnv) (db : DB) (slug : String) (now : Nat),
      (ver_certificado env db slug now).2 ≠ db →
      ∃ r, obtener_certificado db slug = some r) := by
  constructor
  · intro env db slug now h
    by_cases hv : validate_slug slug = true
    · simp [ver_certificado, hv, h]
    · simp [ver_certificado, Bool.not_eq_true _ ▸ hv,
        (Bool.not_eq_true (validate_slug slug)).mp hv]
  · intro env db slug now h
    by_cases hv : validate_slug slug = true
    · cases ho : obtener_certificado db slug with
      | none =>
        exfalso
        apply h
        simp [ver_certificado, hv, ho]
      | some cert => exact ⟨cert, rfl⟩
    · exfalso
      apply h
      simp [ver_certificado, (Bool.not_eq_true (validate_slug slug)).mp hv]

/-- Concrete instantiation of `ver_certificado_unknown_slug`: an unknown
(but well-formed) slug on the one-row table is answered with 404 and the
table is unchanged. -/
theorem ver_certificado_unknown_slug_witness :
    ver_certificado ⟨fun _ => none, fun _ => false⟩ dbFrank1 "nadie" 0
      = (ViewOutcome.notFound, dbFrank1) := by
  exact ver_certificado_unknown_slug.1 ⟨fun _ => none, fun _ => false⟩
    dbFrank1 "nadie" 0 (by decide)

/-! ## Certificate generation (generator.py)

The `database` collaborator of `CertificateGenerator` is duck-typed in the
source; it is modelled as a record of the two methods the generator calls,
over an abstract store state `σ`.  Instantiating it with
`obtener_certificado` / `guardar_certificado` over `DB` gives the real
store; other instantiations model the store misbehaving (for example a
concurrent writer causing a duplicate-key rejection). -/

structure DbOps (σ : Type) where
  obtener : σ → String → Option Record
  guardar : σ → String → String → String → String → String → Nat → σ × Bool

/-- The real store of database.py. -/
def realDbOps : DbOps DB where
  obtener := obtener_certificado
  guardar := fun db slug nombre email url publicId now =>
    guardar_certificado db slug nombre email url publicId now

/-- A successful Cloudinary upload: the asset URL and public id returned by
`upload_svg`. -/
structure UploadResult where
  url : String
  public_id : String
deriving Repr, DecidableEq

/-- The `cloudinary_storage` collaborator: its `configured` flag and its
`upload_svg(content, slug)` method, `none` modelling an upload failure. -/
structure CloudinaryStorage where
  configured : Bool
  upload_svg : String → String → Option UploadResult

/-- The generator (generator.py lines 13-41): the template file content and
the two optional collaborators. -/
structure CertificateGenerator (σ : Type) where
  template : String
  database : Option (DbOps σ)
  cloudinary_storage : Option CloudinaryStorage

/-- The per-item result dictionary of `generar_certificado`: the success
shape carries slug and asset fields, the failure shape only the error
message. -/
structure GenResult where
  nombre : String
  email : String
  slug : Option String
  cloudinary_url : Option String
  cloudinary_public_id : Option String
  url : Option String
  success : Bool
  error : Option String
deriving Repr, DecidableEq

/-- The failure dictionary built in the `except` branch of
generator.py lines 106-113. -/
def genFailure (nombre email msg : String) : GenResult :=
  ⟨nombre, email, none, none, none, none, false, some msg⟩

/-- The personalized SVG (generator.py line 59): the template with the
name placeholder replaced. -/
def svgPersonalizado {σ : Type} (g : CertificateGenerator σ) (nombre : String) :
    String :=
  g.template.replace "\x7b\x7bNOMBRE\x7d\x7d" nombre

/-- The slug picked by generator.py lines 62-66: the uniqueness resolver
against the store when a database is configured, the plain normalized name
otherwise.  `fuel` bounds the resolver's probe loop. -/
def slugElegido {σ : Type} (g : CertificateGenerator σ) (fuel : Nat)
    (nombre : String) (s : σ) : String :=
  match g.database with
  | some dbOps =>
    (generar_slug_unico nombre (fun c => (dbOps.obtener s c).isSome)
        fuel).getD (nombre_to_slug nombre)
  | none => nombre_to_slug nombre

/-- `CertificateGenerator.generar_certificado` (generator.py lines 42-113):
personalize the template, resolve the slug, upload to Cloudinary (raising
— hence returning the failure dictionary — when the storage collaborator
is missing, unconfigured, or its upload fails), then save the record,
ignoring the boolean the save returns, and report success. -/
def generar_certificado {σ : Type} (g : CertificateGenerator σ) (fuel : Nat)
    (nombre email : String) (now : Nat) (s : σ) : GenResult × σ :=
  let svg := svgPersonalizado g nombre
  let slug := slugElegido g fuel nombre s
  match g.cloudinary_storage with
  | none => (genFailure nombre email "Cloudinary no está configurado", s)
  | some st =>
    if st.configured then
      match st.upload_svg svg slug with
      | none =>
        (genFailure nombre email "Error al subir certificado a Cloudinary", s)
      | some up =>
        let s2 := match g.database with
          | some dbOps =>
            (dbOps.guardar s slug nombre email up.url up.public_id now).1
          | none => s
        (⟨nombre, email, some slug, some up.url, some up.public_id,
          some ("/certificado/" ++ slug), true, none⟩, s2)
    else (genFailure nombre email "Cloudinary no está configurado", s)

/-- The asset upload step of a generation request fails: the storage
collaborator is missing, not configured, or its upload returns failure at
the arguments the request computes. -/
def uploadStepFails {σ : Type} (g : CertificateGenerator σ) (fuel : Nat)
    (nombre : String) (s : σ) : Prop :=
  match g.cloudinary_storage with
  | none => True
  | some st => st.configured = false ∨
      st.upload_svg (svgPersonalizado g nombre)
        (slugElegido g fuel nombre s) = none

/-- **C5.** If the upload step fails, the request persists nothing and
returns a failure result; conversely the store state changes only when the
upload has succeeded, so no record exists without a backing asset
reference. -/
theorem generar_certificado_atomic {σ : Type} (g : CertificateGenerator σ)
    (fuel : Nat) (nombre email : String) (now : Nat) (s : σ) :
    (uploadStepFails g fuel nombre s →
      (generar_certificado g fuel nombre email now s).1.success = false ∧
      (generar_certificado g fuel nombre email now s).2 = s) ∧
    ((generar_certificado g fuel nombre email now s).2 ≠ s →
      ∃ st up, g.cloudinary_storage = some st ∧ st.configured = true ∧
        st.upload_svg (svgPersonalizado g nombre)
          (slugElegido g fuel nombre s) = some up ∧
        (generar_certificado g fuel nombre email now s).1.success = true) := by
  cases hst : g.cloudinary_storage with
  | none =>
    constructor
    · intro _
      constructor <;> simp [generar_certificado, hst, genFailure]
    · intro hne
      exfalso; apply hne
      simp [generar_certificado, hst]
  | some st =>
    by_cases hconf : st.configured = true
    · cases hup : st.upload_svg (svgPersonalizado g nombre)
        (slugElegido g fuel nombre s) with
      | none =>
        constructor
        · intro _
          constructor <;>
            simp [generar_certificado, hst, hconf, hup, genFailure]
        · intro hne
          exfalso; apply hne
          simp [generar_certificado, hst, hconf, hup]
      | some up =>
        constructor
        · intro hfail
          rw [uploadStepFails, hst] at hfail
          rcases hfail with h | h
          · rw [hconf] at h; cases h
          · rw [hup] at h; cases h
        · intro _
          refine ⟨st, up, rfl, hconf, hup, ?_⟩
          simp [generar_certificado, hst, hconf, hup]
    · have hconf2 : st.configured = false := by
        simpa using hconf
      constructor
      · intro _
        constructor <;>
          simp [generar_certificado, hst, hconf2, genFailure]
      · intro hne
        exfalso; apply hne
        simp [generar_certificado, hst, hconf2]

/-- A generator with a database but no storage collaborator. -/
def gSinCloud : CertificateGenerator DB :=
  ⟨"Certificado de \x7b\x7bNOMBRE\x7d\x7d", some realDbOps, none⟩

/-- Concrete instantiation of `generar_certificado_atomic`: without a
storage collaborator the request fails and the one-row table is left
exactly as it was. -/
theorem generar_certificado_atomic_witness :
    (generar_certificado gSinCloud 3 "Ana" "ana@example.com" 0 dbFrank1).1.success
        = false ∧
    (generar_certificado gSinCloud 3 "Ana" "ana@example.com" 0 dbFrank1).2
        = dbFrank1 :=
  (generar_certificado_atomic gSinCloud 3 "Ana" "ana@example.com" 0
    dbFrank1).1 trivial

/-! ## Duplicate rejection during save (claim about generator.py lines
85-104 with database.py lines 125-128) -/

/-- **C4 (amended).** On a successful upload, `generar_certificado` makes
exactly one save attempt and discards the boolean `guardar_certificado`
returns: the final store state is one application of `guardar`, whether or
not it reported the duplicate outcome, and the per-item result reports
success with no error in either case — there is no internal retry of the
uniqueness resolution. -/
theorem generar_certificado_ignores_duplicate {σ : Type}
    (g : CertificateGenerator σ) (dbOps : DbOps σ) (fuel : Nat)
    (nombre email : String) (now : Nat) (s : σ) (st : CloudinaryStorage)
    (up : UploadResult)
    (hdb : g.database = some dbOps)
    (hst : g.cloudinary_storage = some st)
    (hconf : st.configured = true)
    (hup : st.upload_svg (svgPersonalizado g nombre)
      (slugElegido g fuel nombre s) = some up) :
    generar_certificado g fuel nombre email now s =
      (⟨nombre, email, some (slugElegido g fuel nombre s), some up.url,
          some up.public_id,
          some ("/certificado/" ++ slugElegido g fuel nombre s), true, none⟩,
        (dbOps.guardar s (slugElegido g fuel nombre s) nombre email up.url
          up.public_id now).1) := by
  simp [generar_certificado, hst, hconf, hup, hdb]

/-- A store whose save always answers with the duplicate outcome, as when a
concurrent writer has taken the slug between the uniqueness probe and the
insert; the state counts how many save attempts were made. -/
def dupDbOps : DbOps Nat where
  obtener := fun _ _ => none
  guardar := fun n _ _ _ _ _ _ => (n + 1, false)

/-- A generator wired to the always-duplicate store. -/
def gDup : CertificateGenerator Nat :=
  ⟨"Certificado de \x7b\x7bNOMBRE\x7d\x7d", some dupDbOps,
    some ⟨true, fun _ slug =>
      some ⟨"https://res.cloudinary.com/demo/" ++ slug, slug⟩⟩⟩

/-- **C4 (counterexample).** In a run where the store rejects the save as a
duplicate, the generation operation makes exactly one save attempt — it
does not retry uniqueness resolution — and reports success with no error.
The claim that a duplicate rejection is "retried once internally via the
uniqueness resolver" would require a second save attempt. -/
theorem generar_certificado_no_retry_on_duplicate :
    (generar_certificado gDup 2 "Frank Vargas" "frank@example.com" 0 0).2 = 1 ∧
    (generar_certificado gDup 2 "Frank Vargas" "frank@example.com" 0 0).1.success
      = true ∧
    (generar_certificado gDup 2 "Frank Vargas" "frank@example.com" 0 0).1.error
      = none := by
  refine ⟨by decide, by decide, by decide⟩

/-- Concrete instantiation of `generar_certificado_ignores_duplicate` on
the always-duplicate store: the one save attempt leaves the call counter at
1 and the result reports success. -/
theorem generar_certificado_ignores_duplicate_witness :
    generar_certificado gDup 2 "Frank Vargas" "frank@example.com" 0 0 =
      (⟨"Frank Vargas", "frank@example.com", some "frank-vargas",
          some "https://res.cloudinary.com/demo/frank-vargas",
          some "frank-vargas", some "/certificado/frank-vargas", true, none⟩,
        1) := by
  have h := generar_certificado_ignores_duplicate gDup dupDbOps 2
    "Frank Vargas" "frank@example.com" 0 0
    ⟨true, fun _ slug => some ⟨"https://res.cloudinary.com/demo/" ++ slug, slug⟩⟩
    ⟨"https://res.cloudinary.com/demo/frank-vargas", "frank-vargas"⟩
    rfl rfl rfl (by decide)
  exact h.trans (by decide)

/-! ## Batch generation (generator.py, generar_batch) -/

/-- One entry of the participant list: the values of
`participante.get('nombre')` and `participante.get('email')`, `none`
standing for a missing key or JSON null. -/
structure Participante where
  nombre : Option String
  email : Option String
deriving Repr, DecidableEq

/-- Python falsiness of an optional string: missing, null or empty. -/
def falsyStr : Option String → Bool
  | none => true
  | some s => s.isEmpty

/-- One entry of the `resultados` list: either the invalid-participant
dictionary appended at generator.py lines 137-141 or a per-item result of
`generar_certificado`. -/
inductive ItemResult where
  | invalid (p : Participante)
  | gen (r : GenResult)
deriving Repr, DecidableEq

/-- The name the entry reports: the participant as recorded for an invalid
entry, the result's name field otherwise. -/
def itemNombre : ItemResult → Option String
  | ItemResult.invalid p => p.nombre
  | ItemResult.gen r => some r.nombre

/-- Whether an entry counts as a success. -/
def itemSuccess : ItemResult → Bool
  | ItemResult.invalid _ => false
  | ItemResult.gen r => r.success

/-- The loop of `generar_batch` (generator.py lines 131-164): per item,
either record the invalid-participant failure, or run
`generar_certificado` and count it as success or error; the store state
threads through the calls in order.  Returns
(exitosos, errores, resultados, final state). -/
def generar_batch_aux {σ : Type} (g : CertificateGenerator σ) (fuel now : Nat) :
    List Participante → σ → Nat × Nat × List ItemResult × σ
  | [], s => (0, 0, [], s)
  | p :: ps, s =>
    if falsyStr p.nombre || falsyStr p.email then
      let rest := generar_batch_aux g fuel now ps s
      (rest.1, rest.2.1 + 1, ItemResult.invalid p :: rest.2.2.1, rest.2.2.2)
    else
      let res := generar_certificado g fuel (p.nombre.getD "")
        (p.email.getD "") now s
      let rest := generar_batch_aux g fuel now ps res.2
      if res.1.success then
        (rest.1 + 1, rest.2.1, ItemResult.gen res.1 :: rest.2.2.1, rest.2.2.2)
      else
        (rest.1, rest.2.1 + 1, ItemResult.gen res.1 :: rest.2.2.1, rest.2.2.2)

/-- The summary dictionary returned by `generar_batch`
(generator.py lines 168-173). -/
structure BatchResult (σ : Type) where
  total : Nat
  exitosos : Nat
  errores : Nat
  resultados : List ItemResult
  state : σ

/-- `CertificateGenerator.generar_batch` (generator.py lines 115-173). -/
def generar_batch {σ : Type} (g : CertificateGenerator σ) (fuel now : Nat)
    (participantes : List Participante) (s : σ) : BatchResult σ :=
  let r := generar_batch_aux g fuel now participantes s
  ⟨participantes.length, r.1, r.2.1, r.2.2.1, r.2.2.2⟩

theorem generar_certificado_nombre {σ : Type} (g : CertificateGenerator σ)
    (fuel : Nat) (nombre email : String) (now : Nat) (s : σ) :
    (generar_certificado g fuel nombre email now s).1.nombre = nombre := by
  cases hst : g.cloudinary_storage with
  | none => simp [generar_certificado, hst, genFailure]
  | some st =>
    by_cases hconf : st.configured = true
    · cases hup : st.upload_svg (svgPersonalizado g nombre)
        (slugElegido g fuel nombre s) with
      | none => simp [generar_certificado, hst, hconf, hup, genFailure]
      | some up => simp [generar_certificado, hst, hconf, hup]
    · simp [generar_certificado, hst, hconf, genFailure]

theorem generar_batch_aux_spec {σ : Type} (g : CertificateGenerator σ)
    (fuel now : Nat) :
    ∀ (ps : List Participante) (s : σ),
      (generar_batch_aux g fuel now ps s).1 +
          (generar_batch_aux g fuel now ps s).2.1 = ps.length ∧
      ((generar_batch_aux g fuel now ps s).2.2.1).map itemNombre
        = ps.map (fun p => p.nombre) := by
  intro ps
  induction ps with
  | nil => intro s; exact ⟨rfl, rfl⟩
  | cons p ps ih =>
    intro s
    by_cases hf : (falsyStr p.nombre || falsyStr p.email) = true
    · have ih2 := ih s
      constructor
      · simp only [generar_batch_aux, if_pos hf, List.length_cons]
        omega
      · simp only [generar_batch_aux, if_pos hf, List.map_cons,
          itemNombre]
        exact congrArg _ ih2.2
    · have hnom : p.nombre = some (p.nombre.getD "") := by
        cases hn : p.nombre with
        | none => rw [hn] at hf; simp [falsyStr] at hf
        | some a => rfl
      have ih2 := ih (generar_certificado g fuel (p.nombre.getD "")
        (p.email.getD "") now s).2
      by_cases hsucc : (generar_certificado g fuel (p.nombre.getD "")
          (p.email.getD "") now s).1.success = true
      · constructor
        · simp only [generar_batch_aux, if_neg hf, if_pos hsucc,
            List.length_cons]
          omega
        · simp only [generar_batch_aux, if_neg hf, if_pos hsucc,
            List.map_cons, itemNombre]
          rw [generar_certificado_nombre, ← hnom]
          exact congrArg _ ih2.2
      · constructor
        · simp only [generar_batch_aux, if_neg hf, if_neg hsucc,
            List.length_cons]
          omega
        · simp only [generar_batch_aux, if_neg hf, if_neg hsucc,
            List.map_cons, itemNombre]
          rw [generar_certificado_nombre, ← hnom]
          exact congrArg _ ih2.2

/-- The three-participant scenario: a storage collaborator whose upload
fails exactly for the slug of the second participant. -/
def gScenario : CertificateGenerator DB :=
  ⟨"Certificado de \x7b\x7bNOMBRE\x7d\x7d", some realDbOps,
    some ⟨true, fun _ slug =>
      if slug == "bob" then none
      else some ⟨"https://res.cloudinary.com/demo/" ++ slug, slug⟩⟩⟩

/-- The three participants of the scenario. -/
def scenarioParts : List Participante :=
  [⟨some "Alice", some "alice@example.com"⟩,
   ⟨some "Bob", some "bob@example.com"⟩,
   ⟨some "Carol", some "carol@example.com"⟩]

/-- **C6.** Batch generation processes the list sequentially without
rollback: the summary's `total` is the length of the list, successes and
errors partition it, and `resultados` has one entry per input in input
order; on the three-item scenario where item 2 fails upstream, there are
exactly 2 successes, 1 failure, and exactly 2 persisted records. -/
theorem generar_batch_summary :
    (∀ (σ : Type) (g : CertificateGenerator σ) (fuel now : Nat)
        (ps : List Participante) (s : σ),
      (generar_batch g fuel now ps s).total = ps.length ∧
      (generar_batch g fuel now ps s).exitosos +
          (generar_batch g fuel now ps s).errores
        = (generar_batch g fuel now ps s).total ∧
      ((generar_batch g fuel now ps s).resultados).map itemNombre
        = ps.map (fun p => p.nombre)) ∧
    (generar_batch gScenario 5 0 scenarioParts ([] : DB)).exitosos = 2 ∧
    (generar_batch gScenario 5 0 scenarioParts ([] : DB)).errores = 1 ∧
    ((generar_batch gScenario 5 0 scenarioParts ([] : DB)).state).length
      = 2 ∧
    ((generar_batch gScenario 5 0 scenarioParts ([] : DB)).resultados).map
        itemSuccess = [true, false, true] := by
  refine ⟨?_, by decide, by decide, by decide, by decide⟩
  intro σ g fuel now ps s
  have h := generar_batch_aux_spec g fuel now ps s
  exact ⟨rfl, h.1, h.2⟩

end GeneradorDiplos
